import Mathlib

/-!
Verification development for the two-party TCP chat program (src/main.c).

The C program is shallowly embedded: buffers are lists of byte values
(`Nat`, with 0 playing the role of the C NUL terminator), the chat loop
body is an explicit state-passing function over an environment that
supplies the outcomes of `send` / `select` / `recv`, and operations whose
C behavior is undefined (out-of-bounds indexing, `strlen` running off the
end of a buffer) return `none`.
-/

namespace ChatC

set_option maxRecDepth 8000

/-- Byte values 0..255; 0 is the C NUL terminator. -/
abbrev Byte := Nat

/-- The newline byte `\n`. -/
def NL : Byte := 10

/-- The carriage-return byte `\r`. -/
def CRb : Byte := 13

/-- One trailing-character strip of `WaitForUserInput` (src/main.c:376-382):
`LastChar = strlen(InputBuffer) - 1; if (InputBuffer[LastChar] == c)
InputBuffer[LastChar] = '\0';`.  The buffer string is represented by the
byte list `s`; when `s` is empty, `strlen - 1` underflows and
`InputBuffer[LastChar]` is an out-of-bounds access (undefined behavior),
modelled as `none`. -/
def trimLastByte (c : Byte) (s : List Byte) : Option (List Byte) :=
  match s.getLast? with
  | none => none
  | some b => if b = c then some s.dropLast else some s

/-- The full trimming performed by `WaitForUserInput` after `fgets`
(src/main.c:376-382): strip one trailing `\n`, then re-take `strlen` and
strip one trailing `\r`.  The input is the C string left in `InputBuffer`
by `fgets`; the result is the string that `Chat` later transmits with
`send(ServerSocket, InputBuffer, strlen(InputBuffer), 0)`. -/
def WaitForUserInput (s : List Byte) : Option (List Byte) :=
  match trimLastByte NL s with
  | none => none
  | some s1 => trimLastByte CRb s1

/-- Spec-side description of the trimming (for the refinement claim C1):
"the line with a single trailing newline stripped and, if one is then
present at the end, a carriage return stripped as well". -/
def specStrip (s : List Byte) : List Byte :=
  let s1 := if s.getLast? = some NL then s.dropLast else s
  if s1.getLast? = some CRb then s1.dropLast else s1

lemma trimLastByte_concat (c : Byte) (l : List Byte) (a : Byte) :
    trimLastByte c (l ++ [a]) = some (if a = c then l else l ++ [a]) := by
  simp only [trimLastByte, List.getLast?_concat, List.dropLast_concat]
  split <;> simp_all

lemma trimLastByte_nil (c : Byte) : trimLastByte c [] = none := rfl

lemma WaitForUserInput_concat (l : List Byte) (a : Byte) :
    WaitForUserInput (l ++ [a]) =
      trimLastByte CRb (if a = NL then l else l ++ [a]) := by
  simp only [WaitForUserInput, trimLastByte_concat]

lemma specStrip_concat_of_ne (l : List Byte) (a : Byte) (hn : a ≠ NL) :
    specStrip (l ++ [a]) = if a = CRb then l else l ++ [a] := by
  simp only [specStrip, List.getLast?_concat, List.dropLast_concat]
  split
  · simp_all
  · split <;> simp_all

/-- C1 (amended): for every completed local input line other than the
empty string and the bare newline line, the trimming in
`WaitForUserInput` is well-defined and the transmitted bytes equal the
line with a single trailing newline stripped and, if then present, a
carriage return stripped as well; no other bytes are altered.  (For the
inputs `[]` and `"\n"` the C code indexes the buffer at `strlen - 1 = -1`,
which is undefined; see the counterexample for C1 and claim C2.) -/
theorem WaitForUserInput_eq_specStrip (s : List Byte)
    (h0 : s ≠ []) (h1 : s ≠ [NL]) :
    WaitForUserInput s = some (specStrip s) := by
  rcases List.eq_nil_or_concat s with rfl | ⟨l, a, hs⟩
  · exact absurd rfl h0
  rw [List.concat_eq_append] at hs
  subst hs
  by_cases ha : a = NL
  · subst ha
    have hl : l ≠ [] := by
      intro h; subst h; exact h1 rfl
    rcases List.eq_nil_or_concat l with rfl | ⟨l2, b, hl2⟩
    · exact absurd rfl hl
    rw [List.concat_eq_append] at hl2
    subst hl2
    rw [WaitForUserInput_concat, if_pos rfl]
    simp only [specStrip, List.getLast?_concat, if_pos rfl, List.dropLast_concat]
    rw [trimLastByte_concat]
    split <;> simp_all
  · rw [WaitForUserInput_concat, if_neg ha, trimLastByte_concat,
      specStrip_concat_of_ne l a ha]

/-- C1 witness: the raw keyboard line `"hello\r\n"` is transmitted as the
bytes `"hello"`. -/
theorem WaitForUserInput_eq_specStrip_witness :
    ([104, 101, 108, 108, 111, 13, 10] : List Byte) ≠ [] ∧
    ([104, 101, 108, 108, 111, 13, 10] : List Byte) ≠ [NL] ∧
    WaitForUserInput [104, 101, 108, 108, 111, 13, 10] =
      some (specStrip [104, 101, 108, 108, 111, 13, 10]) ∧
    specStrip [104, 101, 108, 108, 111, 13, 10] = [104, 101, 108, 108, 111] :=
  ⟨by decide, by decide,
    WaitForUserInput_eq_specStrip [104, 101, 108, 108, 111, 13, 10]
      (by decide) (by decide), by decide⟩

/-- C1 counterexample: for the completed input line consisting of a bare
newline, the claim demands that the empty byte sequence be transmitted
(`specStrip [10] = []`), but the second trailing-character check of
`WaitForUserInput` indexes the then-empty buffer at `strlen - 1 = -1`,
so the code's result is undefined (`none`), not `some []`. -/
theorem WaitForUserInput_newline_counterexample :
    WaitForUserInput [NL] = none ∧ specStrip [NL] = [] ∧
    WaitForUserInput [NL] ≠ some (specStrip [NL]) := by
  refine ⟨by decide, by decide, by decide⟩

/-- C2 (amended): the trimming step of `WaitForUserInput` accesses only
in-bounds buffer positions exactly when the buffer is non-empty at each
of the two checks: the Option-valued embedding returns `none` precisely
for the empty input and for the input consisting of a single newline
byte, and is well-defined (`some`) for every other delivered line. -/
theorem WaitForUserInput_none_iff (s : List Byte) :
    WaitForUserInput s = none ↔ s = [] ∨ s = [NL] := by
  rcases List.eq_nil_or_concat s with rfl | ⟨l, a, hs⟩
  · simp [WaitForUserInput, trimLastByte_nil]
  rw [List.concat_eq_append] at hs
  subst hs
  by_cases ha : a = NL
  · subst ha
    rw [WaitForUserInput_concat, if_pos rfl]
    rcases List.eq_nil_or_concat l with rfl | ⟨l2, b, hl2⟩
    · simp [trimLastByte_nil]
    · rw [List.concat_eq_append] at hl2
      subst hl2
      rw [trimLastByte_concat]
      constructor
      · intro h; split at h <;> simp_all
      · intro h
        rcases h with h | h
        · simp at h
        · rw [List.append_left_eq_self] at h
          simp at h
  · rw [WaitForUserInput_concat, if_neg ha, trimLastByte_concat]
    constructor
    · intro h; split at h <;> simp_all
    · intro h
      rcases h with h | h
      · simp at h
      · rcases l with _ | ⟨c, l⟩ <;> simp_all

/-- C2 counterexample: for the empty delivered line the first check
indexes the buffer at position `strlen - 1 = -1`, an out-of-bounds
access: the Option-valued index returns `none`, contradicting the claim
that it never does so even for the empty result. -/
theorem WaitForUserInput_empty_counterexample :
    WaitForUserInput [] = none := by decide

/-! ## The `Chat` session loop (src/main.c:285-368)

`ReceiveBuffer` and `InputBuffer` are 300-byte arrays; we model
`ReceiveBuffer` as a full 300-element byte list (stale bytes beyond the
received data matter, because `recv` does not NUL-terminate), and
`InputBuffer` by the C string it holds.  The loop body's external
outcomes (`send` failing, `select`'s return, `recv`'s return) are
supplied by the environment. -/

/-- Events performed by one iteration of the `Chat` do-while loop. -/
inductive ChatEvent
  | joinEv
  | sendEv (bytes : List Byte)
  | sockErrEv
  | spawnEv
  | pollEv
  | recvEv
  | peerQuitEv
  | displayEv (bytes : List Byte)
deriving DecidableEq, Repr

/-- Outcome of the `select` / `recv` pair in one iteration:
`selErr` = `select` returned -1; `selTimeout` = `select` returned 0;
`recvErr` = `select` > 0 and `recv` returned `SOCKET_ERROR`;
`recvClosed` = `recv` returned 0; `recvData d` = `recv` wrote the bytes
`d` (with `0 < d.length ≤ 300`) into `ReceiveBuffer`. -/
inductive PollOutcome
  | selErr
  | selTimeout
  | recvErr
  | recvClosed
  | recvData (d : List Byte)
deriving DecidableEq, Repr

/-- `strlen` over a bounded buffer: the index of the first NUL, or
`none` if the scan runs off the end of the buffer (undefined behavior of
the C `strlen`). -/
def cStrlen : List Byte → Option Nat
  | [] => none
  | b :: bs => if b = 0 then some 0 else Option.map (· + 1) (cStrlen bs)

/-- `recv` writing `d` into the front of `buf`, leaving stale bytes
beyond `d.length` untouched. -/
def writeBytes (d buf : List Byte) : List Byte := d ++ buf.drop d.length

/-- Result of the poll-and-receive phase: the new `ReceiveBuffer`,
whether `bPerformExit` was set, and the observable events. -/
structure PollResult where
  buf : List Byte
  exitSet : Bool
  events : List ChatEvent
deriving DecidableEq, Repr

/-- The poll-and-receive phase of `Chat` (src/main.c:327-365): `select`
with the 500-microsecond timeout, then on readiness
`recv(ServerSocket, ReceiveBuffer, 300, 0)`; `SOCKET_ERROR` and `0`
set `bPerformExit` (error report resp. "Other party quit!"); `N > 0`
prints `"They said: %s"` (the bytes up to the first NUL) and clears
exactly `strlen(ReceiveBuffer)` bytes with `memset`.  `none` models the
undefined case where `strlen`/`printf` run off the end of the buffer. -/
def ChatPoll (buf : List Byte) : PollOutcome → Option PollResult
  | .selErr => some ⟨buf, true, [.pollEv, .sockErrEv]⟩
  | .selTimeout => some ⟨buf, false, [.pollEv]⟩
  | .recvErr => some ⟨buf, true, [.pollEv, .recvEv, .sockErrEv]⟩
  | .recvClosed => some ⟨buf, true, [.pollEv, .recvEv, .peerQuitEv]⟩
  | .recvData d =>
    match cStrlen (writeBytes d buf) with
    | none => none
    | some n =>
      some ⟨List.replicate n 0 ++ (writeBytes d buf).drop n, false,
        [.pollEv, .recvEv, .displayEv ((writeBytes d buf).take n)]⟩

lemma cStrlen_append_of_forall_ne (d rest : List Byte) (h : ∀ b ∈ d, b ≠ 0) :
    cStrlen (d ++ 0 :: rest) = some d.length := by
  induction d with
  | nil => simp [cStrlen]
  | cons b bs ih =>
    have hb : b ≠ 0 := h b (by simp)
    have ihs : cStrlen (bs ++ 0 :: rest) = some bs.length :=
      ih (fun x hx => h x (by simp [hx]))
    simp [cStrlen, hb, ihs]

lemma drop_replicate_zero (n m : Nat) :
    (List.replicate n (0 : Byte)).drop m = List.replicate (n - m) 0 := by
  induction n generalizing m with
  | zero => simp
  | succ k ih =>
    cases m with
    | zero => simp
    | succ m' => simp [List.replicate_succ, ih m']

/-- C3 (amended): while the session is RUNNING, a receive error and a
`select` error transition to TERMINATING with an error report; a
zero-byte receive transitions to TERMINATING reported as "peer quit"
and not as an error; and a receive of N>0 bytes that contain no NUL
byte, with N < 300, into the fully cleared `ReceiveBuffer`, displays
exactly the received bytes, fully clears `ReceiveBuffer`, and leaves the
session RUNNING.  (When the received bytes contain a NUL, the display is
truncated at it and `memset` clears only up to it — see the
counterexample; when N = 300 the `strlen`/`printf` behavior is
undefined.) -/
theorem ChatPoll_cases :
    (∀ buf : List Byte, ChatPoll buf .selErr = some ⟨buf, true, [.pollEv, .sockErrEv]⟩) ∧
    (∀ buf : List Byte,
      ChatPoll buf .recvErr = some ⟨buf, true, [.pollEv, .recvEv, .sockErrEv]⟩) ∧
    (∀ buf : List Byte,
      ChatPoll buf .recvClosed = some ⟨buf, true, [.pollEv, .recvEv, .peerQuitEv]⟩) ∧
    (∀ d : List Byte, d ≠ [] → d.length < 300 → (∀ b ∈ d, b ≠ 0) →
      ChatPoll (List.replicate 300 0) (.recvData d) =
        some ⟨List.replicate 300 0, false, [.pollEv, .recvEv, .displayEv d]⟩) := by
  refine ⟨fun _ => rfl, fun _ => rfl, fun _ => rfl, fun d hne hlen hz => ?_⟩
  have hwb : writeBytes d (List.replicate 300 0) =
      d ++ 0 :: List.replicate (299 - d.length) 0 := by
    have h1 : (List.replicate 300 (0 : Byte)).drop d.length =
        List.replicate (300 - d.length) 0 := drop_replicate_zero 300 d.length
    have h2 : 300 - d.length = (299 - d.length) + 1 := by omega
    rw [writeBytes, h1, h2, List.replicate_succ]
  have hlen' : cStrlen (writeBytes d (List.replicate 300 0)) = some d.length := by
    rw [hwb]; exact cStrlen_append_of_forall_ne d _ hz
  simp only [ChatPoll, hlen']
  have htake : (writeBytes d (List.replicate 300 0)).take d.length = d := by
    rw [writeBytes, List.take_left]
  have hdrop : (writeBytes d (List.replicate 300 0)).drop d.length =
      List.replicate (300 - d.length) 0 := by
    rw [writeBytes, List.drop_left, drop_replicate_zero]
  have hrep : List.replicate d.length (0 : Byte) ++ List.replicate (300 - d.length) 0 =
      List.replicate 300 0 := by
    rw [← List.replicate_add]
    congr 1
    omega
  rw [htake, hdrop, hrep]

/-- C3 witness: receiving the two bytes `"hi"` into the cleared buffer
displays exactly `"hi"`, fully clears the buffer, and stays RUNNING. -/
theorem ChatPoll_cases_witness :
    (([104, 105] : List Byte) ≠ [] ∧ ([104, 105] : List Byte).length < 300 ∧
      (∀ b ∈ ([104, 105] : List Byte), b ≠ 0)) ∧
    ChatPoll (List.replicate 300 0) (.recvData [104, 105]) =
      some ⟨List.replicate 300 0, false, [.pollEv, .recvEv, .displayEv [104, 105]]⟩ :=
  ⟨⟨by decide, by decide, by decide⟩,
    ChatPoll_cases.2.2.2 [104, 105] (by decide) (by decide) (by decide)⟩

/-- C3 counterexample: receiving the three bytes `{97, 0, 98}` into the
cleared buffer displays only `[97]` (the `%s` print stops at the NUL),
leaves the stale byte `98` in `ReceiveBuffer` (the `memset` clears only
`strlen` = 1 bytes), and so neither displays exactly the received bytes
nor fully clears the buffer, contradicting the claim's N>0 case. -/
theorem ChatPoll_nul_counterexample :
    ChatPoll (List.replicate 300 0) (.recvData [97, 0, 98]) =
      some ⟨0 :: 0 :: 98 :: List.replicate 297 0, false,
        [.pollEv, .recvEv, .displayEv [97]]⟩ ∧
    ([97] : List Byte) ≠ [97, 0, 98] ∧
    (0 :: 0 :: 98 :: List.replicate 297 0 : List Byte) ≠ List.replicate 300 0 := by
  refine ⟨by decide, by decide, by decide⟩

/-- The state of the `Chat` loop visible to one iteration:
`bHasMessageWaiting`, the C string in `InputBuffer`, the 300-byte
`ReceiveBuffer`, and `bPerformExit`. -/
structure ChatState where
  msgWaiting : Bool
  inputBuf : List Byte
  recvBuf : List Byte
  exitFlag : Bool
deriving DecidableEq, Repr

/-- One iteration of the `Chat` do-while body (src/main.c:302-367).
If `bHasMessageWaiting`: join the input thread, call
`send(ServerSocket, InputBuffer, strlen(InputBuffer), 0)` (the
environment says whether it returns `SOCKET_ERROR`, which sets
`bPerformExit` after an error report), clear the flag and `InputBuffer`,
and call `pthread_create` for the next input thread — all of this
unconditionally, in this order, with no early exit.  Then the
poll-and-receive phase (`ChatPoll`) always runs.  Returns the state at
the `while (bPerformExit != true)` check together with the iteration's
event trace. -/
def ChatIter (st : ChatState) (sendFails : Bool) (po : PollOutcome) :
    Option (ChatState × List ChatEvent) :=
  let st1 : ChatState :=
    if st.msgWaiting then ⟨false, [], st.recvBuf, st.exitFlag || sendFails⟩ else st
  let tr1 : List ChatEvent :=
    if st.msgWaiting then
      .joinEv :: .sendEv st.inputBuf ::
        ((if sendFails then [.sockErrEv] else []) ++ [.spawnEv])
    else []
  match ChatPoll st1.recvBuf po with
  | none => none
  | some pr =>
    some (⟨st1.msgWaiting, st1.inputBuf, pr.buf, st1.exitFlag || pr.exitSet⟩,
      tr1 ++ pr.events)

/-- The `Chat` do-while loop driven by a finite script of environment
outcomes: the body runs, then the loop exits as soon as the
`while (bPerformExit != true)` condition observes the exit flag. -/
def ChatLoop : List (Bool × PollOutcome) → ChatState →
    Option (ChatState × List ChatEvent)
  | [], st => some (st, [])
  | (sf, po) :: rest, st =>
    match ChatIter st sf po with
    | none => none
    | some (st1, tr) =>
      if st1.exitFlag then some (st1, tr)
      else
        match ChatLoop rest st1 with
        | none => none
        | some (st2, tr2) => some (st2, tr ++ tr2)

/-- C4 (amended): once the loop's `while` condition observes TERMINATING
the loop exits and no further send, poll, or receive is attempted — the
rest of the environment script is never consulted; however, within the
single iteration whose send failure sets TERMINATING, the poll (and, if
data is ready, the receive) of that same iteration still executes before
the condition is checked (see the counterexample). -/
theorem ChatLoop_stops_after_exit (sf : Bool) (po : PollOutcome)
    (rest : List (Bool × PollOutcome)) (st st1 : ChatState)
    (tr : List ChatEvent)
    (h : ChatIter st sf po = some (st1, tr)) (hx : st1.exitFlag = true) :
    ChatLoop ((sf, po) :: rest) st = some (st1, tr) := by
  simp only [ChatLoop, h, hx, if_pos]

/-- C4 witness: a send failure terminates the loop at the end of its
iteration; the second script entry is never used. -/
theorem ChatLoop_stops_after_exit_witness :
    ChatIter ⟨true, [104], List.replicate 300 0, false⟩ true .selTimeout =
      some (⟨false, [], List.replicate 300 0, true⟩,
        [.joinEv, .sendEv [104], .sockErrEv, .spawnEv, .pollEv]) ∧
    ChatLoop [(true, .selTimeout), (false, .selTimeout)]
        ⟨true, [104], List.replicate 300 0, false⟩ =
      some (⟨false, [], List.replicate 300 0, true⟩,
        [.joinEv, .sendEv [104], .sockErrEv, .spawnEv, .pollEv]) :=
  ⟨by decide,
    ChatLoop_stops_after_exit true .selTimeout [(false, .selTimeout)]
      ⟨true, [104], List.replicate 300 0, false⟩
      ⟨false, [], List.replicate 300 0, true⟩
      [.joinEv, .sendEv [104], .sockErrEv, .spawnEv, .pollEv]
      (by decide) rfl⟩

/-- C4 counterexample: in the iteration whose send fails (setting
TERMINATING, witnessed by `sockErrEv` and the final `exitFlag = true`),
the loop still performs the poll of the same iteration: `pollEv` occurs
after `sockErrEv` in the trace, contradicting the claim that a send
failure that sets TERMINATING is not followed by a poll. -/
theorem ChatIter_poll_after_send_failure_counterexample :
    ChatIter ⟨true, [104, 105], List.replicate 300 0, false⟩ true .selTimeout =
      some (⟨false, [], List.replicate 300 0, true⟩,
        [.joinEv, .sendEv [104, 105], .sockErrEv, .spawnEv, .pollEv]) ∧
    ChatEvent.pollEv ∈
      [ChatEvent.joinEv, .sendEv [104, 105], .sockErrEv, .spawnEv, .pollEv] := by
  refine ⟨by decide, by decide⟩

lemma ChatPoll_no_spawn (buf : List Byte) (po : PollOutcome) (pr : PollResult)
    (h : ChatPoll buf po = some pr) : ChatEvent.spawnEv ∉ pr.events := by
  cases po <;> simp only [ChatPoll] at h
  · cases h; simp
  · cases h; simp
  · cases h; simp
  · cases h; simp
  · split at h
    · exact absurd h (by simp)
    · cases h; simp

/-- C5 (amended): in the input-ready branch of the Session Loop the
completed `InputLine` is sent unconditionally — the trace always
contains a send of exactly the buffered bytes, and when the consumed
line is empty a zero-byte send is performed (there is no non-emptiness
guard in the code; see the counterexample). -/
theorem ChatIter_always_sends (st : ChatState) (sf : Bool) (po : PollOutcome)
    (st1 : ChatState) (tr : List ChatEvent)
    (hw : st.msgWaiting = true) (h : ChatIter st sf po = some (st1, tr)) :
    ChatEvent.sendEv st.inputBuf ∈ tr := by
  simp only [ChatIter, hw, if_pos] at h
  rcases hp : ChatPoll st.recvBuf po with _ | pr <;> rw [hp] at h
  · exact absurd h (by simp)
  · cases h; simp

/-- C5 witness: a non-empty consumed line is sent as its exact bytes. -/
theorem ChatIter_always_sends_witness :
    (⟨true, [107], List.replicate 300 0, false⟩ : ChatState).msgWaiting = true ∧
    ChatIter ⟨true, [107], List.replicate 300 0, false⟩ false .selTimeout =
      some (⟨false, [], List.replicate 300 0, false⟩,
        [.joinEv, .sendEv [107], .spawnEv, .pollEv]) ∧
    ChatEvent.sendEv [107] ∈ [ChatEvent.joinEv, .sendEv [107], .spawnEv, .pollEv] :=
  ⟨rfl, by decide,
    ChatIter_always_sends ⟨true, [107], List.replicate 300 0, false⟩ false
      .selTimeout ⟨false, [], List.replicate 300 0, false⟩
      [.joinEv, .sendEv [107], .spawnEv, .pollEv] rfl (by decide)⟩

/-- C5 counterexample: when the consumed `InputLine` is empty, the code
still calls `send` (a zero-byte send): the iteration's trace contains
`sendEv []`, contradicting the claim that no send operation is performed
in that iteration. -/
theorem ChatIter_empty_send_counterexample :
    ChatIter ⟨true, [], List.replicate 300 0, false⟩ false .selTimeout =
      some (⟨false, [], List.replicate 300 0, false⟩,
        [.joinEv, .sendEv [], .spawnEv, .pollEv]) ∧
    ChatEvent.sendEv [] ∈ [ChatEvent.joinEv, .sendEv [], .spawnEv, .pollEv] := by
  refine ⟨by decide, by decide⟩

/-- C6 (amended): after consuming an input line the Session Loop clears
`InputReadyFlag` and `InputLine` regardless of the send outcome, and
starts a new Line Input Source task if and only if a line was consumed —
unconditionally, even when `SessionState` has just become TERMINATING
(the `pthread_create` at src/main.c:322 is not guarded by
`bPerformExit`; see the counterexample). -/
theorem ChatIter_spawn_iff_consumed (st : ChatState) (sf : Bool)
    (po : PollOutcome) (st1 : ChatState) (tr : List ChatEvent)
    (h : ChatIter st sf po = some (st1, tr)) :
    (ChatEvent.spawnEv ∈ tr ↔ st.msgWaiting = true) ∧
    (st.msgWaiting = true → st1.msgWaiting = false ∧ st1.inputBuf = []) := by
  by_cases hw : st.msgWaiting
  · simp only [ChatIter, hw, if_pos] at h
    rcases hp : ChatPoll st.recvBuf po with _ | pr <;> rw [hp] at h
    · exact absurd h (by simp)
    · cases h
      refine ⟨⟨fun _ => hw, fun _ => ?_⟩, fun _ => ⟨rfl, rfl⟩⟩
      simp
  · simp only [ChatIter, hw, if_neg, Bool.false_eq_true, if_false] at h
    rcases hp : ChatPoll st.recvBuf po with _ | pr <;> rw [hp] at h
    · exact absurd h (by simp)
    · cases h
      constructor
      · simp only [List.nil_append]
        constructor
        · intro hmem
          exact absurd hmem (ChatPoll_no_spawn st.recvBuf po pr hp)
        · intro hww; exact absurd hww (by simpa using hw)
      · intro hww; exact absurd hww (by simpa using hw)

/-- C6 witness: consuming a line spawns the next input task and clears
the flag and the line. -/
theorem ChatIter_spawn_iff_consumed_witness :
    ChatIter ⟨true, [106], List.replicate 300 0, false⟩ false .selTimeout =
      some (⟨false, [], List.replicate 300 0, false⟩,
        [.joinEv, .sendEv [106], .spawnEv, .pollEv]) ∧
    ((ChatEvent.spawnEv ∈
        [ChatEvent.joinEv, .sendEv [106], .spawnEv, .pollEv] ↔
      (⟨true, [106], List.replicate 300 0, false⟩ : ChatState).msgWaiting = true) ∧
     ((⟨true, [106], List.replicate 300 0, false⟩ : ChatState).msgWaiting = true →
      (⟨false, [], List.replicate 300 0, false⟩ : ChatState).msgWaiting = false ∧
      (⟨false, [], List.replicate 300 0, false⟩ : ChatState).inputBuf = [])) :=
  ⟨by decide,
    ChatIter_spawn_iff_consumed ⟨true, [106], List.replicate 300 0, false⟩ false
      .selTimeout ⟨false, [], List.replicate 300 0, false⟩
      [.joinEv, .sendEv [106], .spawnEv, .pollEv] (by decide)⟩

/-- C6 counterexample: when the send of the consumed line fails, the
state at the end of the iteration is TERMINATING (`exitFlag = true`),
yet the trace still contains `spawnEv`: a new Line Input Source task is
started even though the session is no longer RUNNING, contradicting the
claim's "only if SessionState is still RUNNING". -/
theorem ChatIter_spawn_while_terminating_counterexample :
    ChatIter ⟨true, [97], List.replicate 300 0, false⟩ true .selTimeout =
      some (⟨false, [], List.replicate 300 0, true⟩,
        [.joinEv, .sendEv [97], .sockErrEv, .spawnEv, .pollEv]) ∧
    ChatEvent.spawnEv ∈
      [ChatEvent.joinEv, .sendEv [97], .sockErrEv, .spawnEv, .pollEv] ∧
    (⟨false, [], List.replicate 300 0, true⟩ : ChatState).exitFlag = true := by
  refine ⟨by decide, by decide, rfl⟩

/-! ## `GetValidPortNo` (src/main.c:394-412)

The loop re-prompts until `sscanf(InputBuffer, "%d", PortNo) == 1 &&
*PortNo < 65535 && *PortNo > 0`.  `sscanf %d` skips leading white space,
accepts an optional sign, and converts the longest digit run. -/

/-- The white-space characters skipped by `sscanf` (`isspace`). -/
def isSpaceC (c : Char) : Bool :=
  c = ' ' || c = '\t' || c = '\n' || c = '\r' || c = '\x0b' || c = '\x0c'

/-- Skip leading white space, as `sscanf %d` does. -/
def skipSpaces : List Char → List Char
  | [] => []
  | c :: rest => if isSpaceC c then skipSpaces rest else c :: rest

/-- Numeric value of a digit run (`atoi`-style accumulation). -/
def atoiN (ds : List Char) : Nat :=
  ds.foldl (fun a c => a * 10 + (c.toNat - 48)) 0

/-- `sscanf(s, "%d", &n)`: skip white space, optional sign, then at
least one digit; converts the digit run, `none` when no conversion is
performed. -/
def sscanfInt (cs : List Char) : Option Int :=
  match skipSpaces cs with
  | '-' :: rest =>
    let ds := rest.takeWhile Char.isDigit
    if ds.isEmpty then none else some (-(atoiN ds : Int))
  | '+' :: rest =>
    let ds := rest.takeWhile Char.isDigit
    if ds.isEmpty then none else some ((atoiN ds : Int))
  | other =>
    let ds := other.takeWhile Char.isDigit
    if ds.isEmpty then none else some ((atoiN ds : Int))

/-- One round of `GetValidPortNo`'s validation: the input line is
accepted when `sscanf` converts an integer with
`*PortNo < 65535 && *PortNo > 0` (src/main.c:404). -/
def PortNoAccept (s : String) : Option Int :=
  match sscanfInt s.data with
  | some n => if n < 65535 ∧ 0 < n then some n else none
  | none => none

/-- `GetValidPortNo` over a script of prompted lines: re-prompts (moves
to the next line) until one is accepted, and returns its value. -/
def GetValidPortNo : List String → Option Int
  | [] => none
  | s :: rest =>
    match PortNoAccept s with
    | some n => some n
    | none => GetValidPortNo rest

/-- C7 (amended): `GetValidPortNo` returns an integer in [1,65534],
re-prompting exactly on inputs that do not `sscanf`-parse to an integer
in that range: every input parsing to an integer in [1,65534] is
accepted and returned, and every other input (no conversion, n ≤ 0, or
n ≥ 65535) causes a re-prompt.  In particular it accepts 1, 65534 and
"8080" and rejects -5 and "abc" — but, contrary to the claim's stated
interval [1,65535], the strict comparison `*PortNo < 65535` also rejects
65535 (see the counterexample). -/
theorem GetValidPortNo_range :
    (∀ (s : String) (n : Int), sscanfInt s.data = some n → 0 < n → n ≤ 65534 →
      PortNoAccept s = some n) ∧
    (∀ (s : String) (n : Int), sscanfInt s.data = some n → (n ≤ 0 ∨ 65535 ≤ n) →
      PortNoAccept s = none) ∧
    (∀ s : String, sscanfInt s.data = none → PortNoAccept s = none) ∧
    (∀ (ins : List String) (n : Int), GetValidPortNo ins = some n →
      0 < n ∧ n ≤ 65534) := by
  refine ⟨?_, ?_, ?_, ?_⟩
  · intro s n h h1 h2
    simp only [PortNoAccept, h]
    rw [if_pos ⟨by omega, h1⟩]
  · intro s n h hbad
    simp only [PortNoAccept, h]
    rw [if_neg]
    rintro ⟨hlt, hpos⟩
    omega
  · intro s h
    simp only [PortNoAccept, h]
  · intro ins
    induction ins with
    | nil => intro n h; exact absurd h (by simp [GetValidPortNo])
    | cons s rest ih =>
      intro n h
      simp only [GetValidPortNo] at h
      rcases ha : PortNoAccept s with _ | m <;> rw [ha] at h
      · exact ih n h
      · cases h
        simp only [PortNoAccept] at ha
        rcases hs : sscanfInt s.data with _ | k <;> simp only [hs] at ha
        · exact absurd ha (by simp)
        · by_cases hc : k < 65535 ∧ 0 < k
          · rw [if_pos hc] at ha
            injection ha with hkm
            subst hkm
            omega
          · rw [if_neg hc] at ha
            exact absurd ha (by simp)

/-- C7 witness: the prompt sequence "abc", "-5", "0", "65535", "8080"
re-prompts four times and accepts 8080, which lies in [1,65534]. -/
theorem GetValidPortNo_range_witness :
    GetValidPortNo ["abc", "-5", "0", "65535", "8080"] = some 8080 ∧
    (0 < (8080 : Int) ∧ (8080 : Int) ≤ 65534) :=
  ⟨by decide, GetValidPortNo_range.2.2.2 ["abc", "-5", "0", "65535", "8080"] 8080
    (by decide)⟩

/-- C7 counterexample: the input "65535" parses as the integer 65535,
which lies in the claim's interval [1,65535], yet `GetValidPortNo`
rejects it (the comparison is `*PortNo < 65535`), causing a re-prompt
instead of acceptance. -/
theorem GetValidPortNo_65535_counterexample :
    sscanfInt "65535".data = some 65535 ∧
    (1 ≤ (65535 : Int) ∧ (65535 : Int) ≤ 65535) ∧
    PortNoAccept "65535" = none := by
  refine ⟨by decide, by decide, by decide⟩

/-! ## `GetValidIP` (src/main.c:414-478)

The validation loop walks the candidate token character by character,
rejecting on a non-digit non-dot character, on a dot that ends an empty
octet, and on an accumulated octet whose `atoi` value exceeds 255; after
the walk it requires exactly three dots and checks `atoi` of the final
accumulated octet (`atoi("") = 0`, so an empty final octet passes). -/

/-- The character walk of `GetValidIP` (src/main.c:438-468), carrying
`LastIPOctet` (the octet accumulated since the previous dot) and
`OctetCounter` (the number of dots seen); `none` models the
`bValidInput = false; break;` paths. -/
def GetValidIPScan : List Char → List Char → Nat → Option (List Char × Nat)
  | [], last, cnt => some (last, cnt)
  | c :: rest, last, cnt =>
    if ¬c.isDigit ∧ c ≠ '.' then none
    else if c = '.' ∧ last = [] then none
    else if c = '.' then
      if 255 < atoiN last then none
      else GetValidIPScan rest [] (cnt + 1)
    else GetValidIPScan rest (last ++ [c]) cnt

/-- The post-walk checks of `GetValidIP` (src/main.c:469-472):
`OctetCounter == 3` and `atoi(LastIPOctet) <= 255`. -/
def finishIP : Option (List Char × Nat) → Bool
  | none => false
  | some (last, cnt) => cnt == 3 && decide (atoiN last ≤ 255)

/-- Whether one candidate token passes `GetValidIP`'s validation (the
prompting loop repeats until this holds). -/
def GetValidIPCheck (cs : List Char) : Bool :=
  finishIP (GetValidIPScan cs [] 0)

/-- Split a character list at every dot, keeping empty parts (the
dot-separated "octets" of the claim, as `String.splitOn "."` would
produce them). -/
def partsOf : List Char → List (List Char)
  | [] => [[]]
  | c :: rest =>
    if c = '.' then [] :: partsOf rest
    else
      match partsOf rest with
      | [] => [[c]]
      | p :: ps => (c :: p) :: ps

/-- A valid non-final octet: non-empty, all digits, value at most 255. -/
def goodOctB (p : List Char) : Bool :=
  !p.isEmpty && p.all Char.isDigit && decide (atoiN p ≤ 255)

/-- What the final accumulated octet must satisfy: all digits and value
at most 255 — emptiness is not checked (`atoi("") = 0`). -/
def finOctB (p : List Char) : Bool :=
  p.all Char.isDigit && decide (atoiN p ≤ 255)

/-- Spec-side predicate of claim C8 as stated: exactly four
dot-separated decimal octets, each in [0,255], with no empty octet. -/
def SpecIPv4 (cs : List Char) : Bool :=
  match partsOf cs with
  | [a, b, c, d] => goodOctB a && goodOctB b && goodOctB c && goodOctB d
  | _ => false

/-- Spec-side predicate amended to what the code accepts: four
dot-separated parts, the first three non-empty decimal octets in
[0,255], the final one a decimal octet in [0,255] or empty. -/
def SpecIPv4Amended (cs : List Char) : Bool :=
  match partsOf cs with
  | [a, b, c, d] => goodOctB a && goodOctB b && goodOctB c && finOctB d
  | _ => false

/-- Octet-list check equivalent to the walk: all parts but the last must
be good octets, the count of earlier parts plus `cnt` must reach 3, and
the last part need only satisfy the final check. -/
def checkParts : Nat → List (List Char) → Bool
  | cnt, [p] => cnt == 3 && finOctB p
  | cnt, p :: ps => goodOctB p && checkParts (cnt + 1) ps
  | _, [] => false

lemma partsOf_ne_nil (cs : List Char) : partsOf cs ≠ [] := by
  cases cs with
  | nil => simp [partsOf]
  | cons c rest =>
    simp only [partsOf]
    split
    · simp
    · split <;> simp

lemma partsOf_dot (rest : List Char) : partsOf ('.' :: rest) = [] :: partsOf rest := by
  simp [partsOf]

lemma checkParts_head_not_digits (q : List Char) (ps : List (List Char))
    (cnt : Nat) (h : q.all Char.isDigit = false) :
    checkParts cnt (q :: ps) = false := by
  cases ps with
  | nil => simp [checkParts, finOctB, h]
  | cons r rs => simp [checkParts, goodOctB, h]

lemma scan_eq_checkParts (cs : List Char) :
    ∀ (last : List Char) (cnt : Nat), last.all Char.isDigit = true →
      finishIP (GetValidIPScan cs last cnt) =
        (match partsOf cs with
         | [] => false
         | p :: ps => checkParts cnt ((last ++ p) :: ps)) := by
  induction cs with
  | nil =>
    intro last cnt hd
    simp [GetValidIPScan, finishIP, partsOf, checkParts, finOctB, hd]
  | cons c rest ih =>
    intro last cnt hd
    obtain ⟨p, ps, hpp⟩ := List.exists_cons_of_ne_nil (partsOf_ne_nil rest)
    by_cases hdig : c.isDigit
    · -- a digit is appended to the current octet
      have hdot : c ≠ '.' := by
        intro heq; rw [heq] at hdig; exact absurd hdig (by decide)
      rw [GetValidIPScan, if_neg (by tauto), if_neg (by tauto), if_neg hdot]
      have hd2 : (last ++ [c]).all Char.isDigit = true := by
        simp [List.all_append, hd, hdig]
      rw [ih (last ++ [c]) cnt hd2]
      simp only [partsOf, if_neg hdot, hpp]
      rw [List.append_cons, List.append_assoc]
      simp
    · by_cases hdot : c = '.'
      · subst hdot
        by_cases hlast : last = []
        · -- a dot ending an empty octet: rejected
          subst hlast
          rw [GetValidIPScan, if_neg (by simp), if_pos ⟨rfl, rfl⟩]
          simp only [partsOf, if_pos rfl, finishIP]
          rw [hpp]
          cases hq : partsOf rest with
          | nil => exact absurd hq (partsOf_ne_nil rest)
          | cons q qs =>
            rw [hq] at hpp
            cases hpp
            simp [checkParts, goodOctB]
        · -- a dot closing a non-empty octet: range-check, reset, count
          rw [GetValidIPScan, if_neg (by simp), if_neg (by tauto), if_pos rfl]
          have hrhs : (match partsOf ('.' :: rest) with
              | [] => false
              | q :: qs => checkParts cnt ((last ++ q) :: qs)) =
              (goodOctB last && checkParts (cnt + 1) (p :: ps)) := by
            rw [partsOf_dot, hpp]
            simp only [List.append_nil]
            rfl
          rw [hrhs]
          by_cases hrange : 255 < atoiN last
          · rw [if_pos hrange]
            have hg : goodOctB last = false := by
              have h1 : ¬(atoiN last ≤ 255) := by omega
              simp [goodOctB, h1]
            rw [hg]
            simp [finishIP]
          · rw [if_neg hrange, ih [] (cnt + 1) (by simp), hpp]
            have hg : goodOctB last = true := by
              have h1 : atoiN last ≤ 255 := by omega
              have h2 : last.isEmpty = false := by
                simp [List.isEmpty_iff, hlast]
              simp [goodOctB, hd, h1, h2]
            simp [hg]
      · -- a character that is neither digit nor dot: rejected
        rw [GetValidIPScan, if_pos ⟨by simpa using hdig, hdot⟩]
        simp only [partsOf, if_neg hdot, hpp, finishIP]
        have hcf : c.isDigit = false := by
          cases h : c.isDigit
          · rfl
          · exact absurd h hdig
        have hall : (last ++ c :: p).all Char.isDigit = false := by
          rw [List.all_append, List.all_cons, hcf]
          simp
        rw [checkParts_head_not_digits _ _ _ hall]

lemma checkParts_gt3 (ps : List (List Char)) :
    ∀ cnt : Nat, 3 < cnt → checkParts cnt ps = false := by
  induction ps with
  | nil => intro cnt h; rfl
  | cons p ps ih =>
    intro cnt h
    cases ps with
    | nil =>
      have h3 : (cnt == 3) = false := by
        simp
        omega
      simp [checkParts, h3]
    | cons q qs =>
      have : checkParts cnt (p :: q :: qs) =
          (goodOctB p && checkParts (cnt + 1) (q :: qs)) := rfl
      rw [this, ih (cnt + 1) (by omega)]
      simp

lemma checkParts_zero (ps : List (List Char)) :
    checkParts 0 ps =
      (match ps with
       | [a, b, c, d] => goodOctB a && goodOctB b && goodOctB c && finOctB d
       | _ => false) := by
  match ps with
  | [] => rfl
  | [a] => simp [checkParts]
  | [a, b] => simp [checkParts]
  | [a, b, c] => simp [checkParts]
  | [a, b, c, d] => simp [checkParts, Bool.and_assoc]
  | a :: b :: c :: d :: e :: rest =>
    have h4 : checkParts 4 (e :: rest) = false :=
      checkParts_gt3 (e :: rest) 4 (by omega)
    simp [checkParts, h4]

/-- C8 (amended): `GetValidIP` accepts a candidate token if and only if
it consists of exactly four dot-separated parts where the first three
are non-empty decimal octets in [0,255] and the final part is a decimal
octet in [0,255] **or is empty** — the code accepts a trailing empty
final octet such as in "1.2.3." because `atoi("") = 0` passes the final
range check (see the counterexample); all the claim's other examples
behave as stated. -/
theorem GetValidIPCheck_iff (cs : List Char) :
    GetValidIPCheck cs = SpecIPv4Amended cs := by
  have h := scan_eq_checkParts cs [] 0 (by simp)
  obtain ⟨p, ps, hpp⟩ := List.exists_cons_of_ne_nil (partsOf_ne_nil cs)
  rw [GetValidIPCheck, h, hpp]
  simp only [List.nil_append]
  rw [← hpp, checkParts_zero]
  rfl

/-- C8 counterexample: the code accepts "1.2.3.", a token whose final
octet is empty, although the claim states that any string with an empty
final octet is rejected. -/
theorem GetValidIP_trailing_dot_counterexample :
    GetValidIPCheck "1.2.3.".data = true ∧ SpecIPv4 "1.2.3.".data = false := by
  refine ⟨by decide, by decide⟩

/-! ## The `main` role-selection flow (src/main.c:96-178)

`while (ConnectionMode != CLIENT && ConnectionMode != SERVER)` re-prompts
only while no valid role has been chosen; choosing a role sets
`ConnectionMode`, runs one session (setup, `Chat` on success, always
`CloseConnection`), after which the loop condition is false and the
program prints "Press Enter to exit" and returns. -/

/-- A menu keystroke at the role prompt: `'1'`, `'2'`, or anything else. -/
inductive MenuInput
  | one
  | two
  | other
deriving DecidableEq, Repr

/-- Observable milestones of `main`. -/
inductive MainEvent
  | rolePrompt
  | invalidMsg
  | chatSession
  | connectFailMsg
  | closeConn
  | exitPrompt
deriving DecidableEq, Repr

/-- The events of one selected session: `Chat` runs only when connection
setup succeeded, a failure message is printed otherwise, and
`CloseConnection` is called in both cases (src/main.c:130-140,
157-167). -/
def sessionEvents (ok : Bool) : List MainEvent :=
  (if ok then [MainEvent.chatSession] else [MainEvent.connectFailMsg]) ++
    [MainEvent.closeConn]

/-- The `main` menu loop over a script of keystrokes paired with the
connection-setup outcome that would apply if a role is chosen. -/
def mainLoop : List (MenuInput × Bool) → List MainEvent
  | [] => []
  | (i, ok) :: rest =>
    match i with
    | .one => MainEvent.rolePrompt :: (sessionEvents ok ++ [MainEvent.exitPrompt])
    | .two => MainEvent.rolePrompt :: (sessionEvents ok ++ [MainEvent.exitPrompt])
    | .other => MainEvent.rolePrompt :: MainEvent.invalidMsg :: mainLoop rest

/-- C9 (amended): every network-layer failure during an active session
is terminal for that session and is not retried, and the connection is
always closed (`closeConn` occurs whether or not the session succeeded);
but after the one session ends, `main`'s loop condition is already
false, so the program proceeds to the exit prompt and never re-offers
the role selection — the remainder of the input script is not consulted
and no further `rolePrompt` occurs. -/
theorem mainLoop_single_session (i : MenuInput) (ok : Bool)
    (rest : List (MenuInput × Bool)) (hi : i ≠ MenuInput.other) :
    mainLoop ((i, ok) :: rest) =
      MainEvent.rolePrompt :: (sessionEvents ok ++ [MainEvent.exitPrompt]) ∧
    MainEvent.closeConn ∈ mainLoop ((i, ok) :: rest) ∧
    MainEvent.rolePrompt ∉ sessionEvents ok ++ [MainEvent.exitPrompt] := by
  cases i with
  | one =>
    refine ⟨rfl, ?_, ?_⟩ <;> cases ok <;> simp [mainLoop, sessionEvents]
  | two =>
    refine ⟨rfl, ?_, ?_⟩ <;> cases ok <;> simp [mainLoop, sessionEvents]
  | other => exact absurd rfl hi

/-- C9 witness: selecting the server role once runs one session and then
exits; the connection is closed and role selection does not reappear. -/
theorem mainLoop_single_session_witness :
    MenuInput.one ≠ MenuInput.other ∧
    (mainLoop [(MenuInput.one, true), (MenuInput.one, true)] =
      MainEvent.rolePrompt :: (sessionEvents true ++ [MainEvent.exitPrompt]) ∧
     MainEvent.closeConn ∈ mainLoop [(MenuInput.one, true), (MenuInput.one, true)] ∧
     MainEvent.rolePrompt ∉ sessionEvents true ++ [MainEvent.exitPrompt]) :=
  ⟨by decide, mainLoop_single_session MenuInput.one true [(MenuInput.one, true)]
    (by decide)⟩

/-- C9 counterexample: after the first (successful) session ends, the
user is never again offered the server/client choice: the whole trace
contains exactly one `rolePrompt`, and it precedes the session — the
claim's "control returns to role-selection" is false (the process
reaches the exit prompt instead). -/
theorem mainLoop_no_reprompt_counterexample :
    mainLoop [(MenuInput.one, true), (MenuInput.one, true)] =
      [MainEvent.rolePrompt, MainEvent.chatSession, MainEvent.closeConn,
        MainEvent.exitPrompt] ∧
    (mainLoop [(MenuInput.one, true), (MenuInput.one, true)]).count
      MainEvent.rolePrompt = 1 ∧
    (mainLoop [(MenuInput.one, true), (MenuInput.one, true)]).getLast? =
      some MainEvent.exitPrompt := by
  refine ⟨by decide, by decide, by decide⟩

/-! ## The flag-and-join handoff protocol (C10)

Interleaving model of the `Chat` loop and the `WaitForUserInput` thread.
The input thread has three atomic phases: it is `writing` `InputBuffer`
(`fgets` + trimming, src/main.c:372-382), it has `wroteLine` and is about
to publish (`bHasMessageWaiting = true; pthread_exit`, src/main.c:384-385),
and it has `exited`; `pthread_join` in the loop (src/main.c:304) retires
it.  The loop's program counter follows src/main.c:302-331: check the
flag, join, read/send `InputBuffer`, clear the flag and the buffer,
create the next thread, then the poll phase.  `created`/`joined` count
`pthread_create`/`pthread_join` calls; `Chat` creates the first thread
before entering the loop (src/main.c:296). -/

/-- Phase of the current `WaitForUserInput` thread instance. -/
inductive TaskStatus
  | writing
  | wroteLine
  | exited
  | retired
deriving DecidableEq, Repr

/-- Program counter of the session loop inside one iteration. -/
inductive LoopPC
  | checkFlag
  | joinT
  | readSend
  | clearFlag
  | createT
  | pollPhase
deriving DecidableEq, Repr

/-- Joint state of the session loop and the input thread. -/
structure SysState where
  flag : Bool
  task : TaskStatus
  pc : LoopPC
  created : Nat
  joined : Nat
deriving DecidableEq, Repr

/-- Labels of the atomic steps of either schedule. -/
inductive StepLabel
  | tWrite
  | tSetFlag
  | lCheckT
  | lCheckF
  | lJoin
  | lRead
  | lClear
  | lCreate
  | lPoll
deriving DecidableEq, Repr

/-- Interleaved small-step semantics: thread steps (`tWrite` writes
`InputBuffer`; `tSetFlag` publishes `bHasMessageWaiting = true` and
exits) and loop steps (`lCheckT`/`lCheckF` read the flag; `lJoin` is
`pthread_join`, enabled only once the thread has exited; `lRead` is the
`send` that reads `InputBuffer`; `lClear` clears the flag and the
buffer; `lCreate` is `pthread_create`; `lPoll` is the poll phase). -/
inductive Step : SysState → StepLabel → SysState → Prop
  | tWrite (f : Bool) (pc : LoopPC) (c j : Nat) :
      Step ⟨f, .writing, pc, c, j⟩ .tWrite ⟨f, .wroteLine, pc, c, j⟩
  | tSetFlag (f : Bool) (pc : LoopPC) (c j : Nat) :
      Step ⟨f, .wroteLine, pc, c, j⟩ .tSetFlag ⟨true, .exited, pc, c, j⟩
  | lCheckT (t : TaskStatus) (c j : Nat) :
      Step ⟨true, t, .checkFlag, c, j⟩ .lCheckT ⟨true, t, .joinT, c, j⟩
  | lCheckF (t : TaskStatus) (c j : Nat) :
      Step ⟨false, t, .checkFlag, c, j⟩ .lCheckF ⟨false, t, .pollPhase, c, j⟩
  | lJoin (f : Bool) (c j : Nat) :
      Step ⟨f, .exited, .joinT, c, j⟩ .lJoin ⟨f, .retired, .readSend, c, j + 1⟩
  | lRead (f : Bool) (t : TaskStatus) (c j : Nat) :
      Step ⟨f, t, .readSend, c, j⟩ .lRead ⟨f, t, .clearFlag, c, j⟩
  | lClear (f : Bool) (t : TaskStatus) (c j : Nat) :
      Step ⟨f, t, .clearFlag, c, j⟩ .lClear ⟨false, t, .createT, c, j⟩
  | lCreate (f : Bool) (t : TaskStatus) (c j : Nat) :
      Step ⟨f, t, .createT, c, j⟩ .lCreate ⟨f, .writing, .pollPhase, c + 1, j⟩
  | lPoll (f : Bool) (t : TaskStatus) (c j : Nat) :
      Step ⟨f, t, .pollPhase, c, j⟩ .lPoll ⟨f, t, .checkFlag, c, j⟩

/-- The state on entry to the `Chat` do-while loop: the flag is false,
the first input thread has been created and is reading. -/
def initState : SysState := ⟨false, .writing, .checkFlag, 1, 0⟩

/-- States reachable from the loop entry by interleaved steps. -/
def Reachable (s : SysState) : Prop :=
  Relation.ReflTransGen (fun a b => ∃ l, Step a l b) initState s

/-- The protocol invariant: the flag is set only after the thread has
fully published and exited; the loop is past the join (and so may read
`InputBuffer`) only with the thread retired; the retired phase spans
exactly the read/clear/create section; the flag is already cleared when
the next thread is created; and the create/join counters keep at most
one live thread instance. -/
def Inv (s : SysState) : Prop :=
  (s.flag = true → s.task = .exited ∨ s.task = .retired) ∧
  (s.pc = .joinT → s.flag = true) ∧
  (s.task = .retired →
    s.pc = .readSend ∨ s.pc = .clearFlag ∨ s.pc = .createT) ∧
  (s.pc = .readSend → s.flag = true ∧ s.task = .retired) ∧
  (s.pc = .clearFlag → s.flag = true ∧ s.task = .retired) ∧
  (s.pc = .createT → s.flag = false ∧ s.task = .retired) ∧
  s.created = s.joined + (if s.task = .retired then 0 else 1)

lemma inv_init : Inv initState := by
  refine ⟨?_, ?_, ?_, ?_, ?_, ?_, ?_⟩ <;> simp [initState]

lemma inv_step (s t : SysState) (l : StepLabel)
    (hs : Inv s) (hstep : Step s l t) : Inv t := by
  obtain ⟨h1, h2, h3, h4, h5, h6, h7⟩ := hs
  cases hstep <;>
    (refine ⟨?_, ?_, ?_, ?_, ?_, ?_, ?_⟩ <;> simp_all)

lemma inv_reachable (s : SysState) (h : Reachable s) : Inv s := by
  induction h with
  | refl => exact inv_init
  | tail hab hbc ih =>
    obtain ⟨l, hstep⟩ := hbc
    exact inv_step _ _ l ih hstep

/-- C10 (confirmed): in every interleaving of the Session Loop and the
Line Input Source task, (a) the loop is at the `InputLine`-reading step
only when the task is retired, and no `InputBuffer`-writing task step is
enabled there; (b) the flag only transitions false→true by the task's
publish step or true→false by the loop's clear step, which happens only
with the task already joined/retired; (c) at most one task instance is
live at any time (`created - joined ≤ 1`); and (d) whenever the flag is
observed true, the task has completely written `InputLine` and exited. -/
theorem chat_handoff (s : SysState) (hr : Reachable s) :
    (s.pc = .readSend →
      s.task = .retired ∧ ∀ t : SysState, ¬Step s .tWrite t) ∧
    (∀ (l : StepLabel) (t : SysState), Step s l t → s.flag ≠ t.flag →
      (s.flag = false ∧ t.flag = true ∧ l = .tSetFlag) ∨
      (s.flag = true ∧ t.flag = false ∧ l = .lClear ∧ s.task = .retired)) ∧
    s.created - s.joined ≤ 1 ∧
    (s.flag = true → s.task = .exited ∨ s.task = .retired) := by
  obtain ⟨h1, h2, h3, h4, h5, h6, h7⟩ := inv_reachable s hr
  refine ⟨?_, ?_, ?_, h1⟩
  · intro hpc
    obtain ⟨hf, ht⟩ := h4 hpc
    refine ⟨ht, ?_⟩
    intro u hstep
    cases hstep
    simp_all
  · intro l u hstep hne
    cases hstep with
    | tWrite f pc c j => exact (hne rfl).elim
    | tSetFlag f pc c j =>
      have hf : f = false := by
        cases f
        · rfl
        · exact (hne rfl).elim
      subst hf
      exact Or.inl ⟨rfl, rfl, rfl⟩
    | lCheckT t c j => exact (hne rfl).elim
    | lCheckF t c j => exact (hne rfl).elim
    | lJoin f c j => exact (hne rfl).elim
    | lRead f t c j => exact (hne rfl).elim
    | lClear f t c j =>
      obtain ⟨hf, ht⟩ := h5 rfl
      have hf2 : f = true := hf
      have ht2 : t = .retired := ht
      subst hf2
      subst ht2
      exact Or.inr ⟨rfl, rfl, rfl, rfl⟩
    | lCreate f t c j => exact (hne rfl).elim
    | lPoll f t c j => exact (hne rfl).elim
  · by_cases hret : s.task = .retired
    · rw [if_pos hret] at h7
      omega
    · rw [if_neg hret] at h7
      omega


/-- C10 witness: the guarantees instantiated at the loop-entry state,
which is reachable by the empty interleaving. -/
theorem chat_handoff_witness :
    Reachable initState ∧
    ((initState.pc = .readSend →
        initState.task = .retired ∧ ∀ t : SysState, ¬Step initState .tWrite t) ∧
     (∀ (l : StepLabel) (t : SysState), Step initState l t →
        initState.flag ≠ t.flag →
        (initState.flag = false ∧ t.flag = true ∧ l = .tSetFlag) ∨
        (initState.flag = true ∧ t.flag = false ∧ l = .lClear ∧
          initState.task = .retired)) ∧
     initState.created - initState.joined ≤ 1 ∧
     (initState.flag = true →
        initState.task = .exited ∨ initState.task = .retired)) :=
  ⟨Relation.ReflTransGen.refl, chat_handoff initState Relation.ReflTransGen.refl⟩

end ChatC

